import Mathlib

/-!
Verification of the deno-http-redis gateway and connection pool.

Shallow embedding of:
- src/redis.js       (connection pool, command gateway, pipeline execution)
- index.js           (reply-shape normalization, EVALSHA dispatch branch)
- evalsha_handler.js (script resolution)
- scripts/931c1c2f8694f9133c3b93929d3b1eb0ded545eb.js (sismember script handler)
- the session script module (hset/expire pipeline handler)

JavaScript values that can appear as command replies are modelled by
`JsonVal`; the mutable state of the pool by `PoolState`; the external
backend (connection creation, command send, pipeline flush, liveness
probes) by explicit outcome parameters, since the wire protocol library
is an external capability.
-/

set_option maxRecDepth 10000
set_option linter.unusedVariables false
set_option exponentiation.threshold 1100

/-- A JavaScript value as it appears in gateway replies: a string, a
(finite, integral) number, null, an array, or a plain object given as an
insertion-ordered field list. -/
inductive JsonVal where
  | str (s : String)
  | int (n : Int)
  | nil
  | arr (xs : List JsonVal)
  | obj (fields : List (String × JsonVal))
  deriving Repr

/- ### String helpers shared by the embedded functions -/

/-- `leadsWith p s` is true when the char list `p` is an initial segment
of `s` (JS `String.prototype.startsWith` on the decoded characters). -/
def leadsWith : List Char → List Char → Bool
  | [], _ => true
  | _ :: _, [] => false
  | a :: as, b :: bs => a == b && leadsWith as bs

/-- `hasSubseg p s` is true when `p` occurs contiguously somewhere in `s`
(JS `String.prototype.includes`). -/
def hasSubseg (p : List Char) : List Char → Bool
  | [] => p.isEmpty
  | c :: rest => leadsWith p (c :: rest) || hasSubseg p rest

/-- JS `String.prototype.includes` on strings. -/
def containsSubstr (s pat : String) : Bool := hasSubseg pat.data s.data

/-- Remove the first occurrence of `p` from `s`, leaving the rest
untouched: JS `s.replace(p, '')` with a non-global pattern. -/
def dropSeg (p : List Char) : List Char → List Char
  | [] => []
  | c :: rest =>
    if leadsWith p (c :: rest) then (c :: rest).drop p.length
    else c :: dropSeg p rest

/-- JS `s.replace(pat, '')` for a non-global literal pattern. -/
def replaceFirst (s pat : String) : String := String.mk (dropSeg pat.data s.data)

/-- JS `s.split('\n')[0]`. -/
def firstLine (s : String) : String := String.mk (s.data.takeWhile (fun c => c ≠ '\n'))

/-- JS `s.replace(/\r/g, '')`. -/
def removeCR (s : String) : String := String.mk (s.data.filter (fun c => c ≠ '\r'))

/-- JS `toLowerCase` for the ASCII command names handled here
(per-character lowercasing). -/
def lowerStr (s : String) : String := String.mk (s.data.map Char.toLower)

/- ### The JavaScript numeric-string test used by index.js

index.js defines `isNumeric = (str) => !isNaN(parseFloat(str)) && isFinite(str)`.
`parseFloat` parses a leading decimal-float (or Infinity) prefix after
skipping whitespace; `isFinite` coerces the whole (trimmed) string with
the `Number` grammar and asks whether the result is finite.  The model
below implements both on the character level, including overflow:
whether a numeric string is finite depends only on the Infinity
threshold of the double conversion, never on mantissa rounding, and a
literal coerces to Infinity exactly when its exact mathematical value
reaches 2^1024 - 2^970, the midpoint between the largest double and
2^1024, under the round-to-nearest ties-to-even conversion the V8
runtime implements (V8 rounds string literals exactly and does not use
the 20-significant-digit latitude ECMAScript permits).  The threshold
comparison is carried out exactly in integer arithmetic on the parsed
mantissa digits and power-of-ten scale. -/

/-- JS StrWhiteSpace (ASCII portion). -/
def jsWS (c : Char) : Bool :=
  c == ' ' || c == '\t' || c == '\n' || c == '\r' || c == '\x0b' || c == '\x0c'

/-- ASCII decimal digit. -/
def isDigitCh (c : Char) : Bool := '0' ≤ c && c ≤ '9'

/-- Drop one leading `+` or `-` sign if present. -/
def afterSign : List Char → List Char
  | '+' :: r => r
  | '-' :: r => r
  | cs => cs

/-- After sign removal, does a decimal mantissa start here (at least one
digit, possibly after a decimal point)?  This is exactly the condition
for `parseFloat` not to return NaN on a non-Infinity input. -/
def mantissaStarts : List Char → Bool
  | [] => false
  | c :: rest =>
    if isDigitCh c then true
    else if c == '.' then
      match rest with
      | d :: _ => isDigitCh d
      | [] => false
    else false

/-- `!isNaN(parseFloat(s))`: after leading whitespace and an optional
sign there is either an `Infinity` prefix or a decimal mantissa. -/
def jsParseFloatDefined (s : String) : Bool :=
  let cs := afterSign (s.data.dropWhile jsWS)
  leadsWith "Infinity".data cs || mantissaStarts cs

/-- The overflow threshold of the double conversion: a nonnegative value
rounds to Infinity exactly when it reaches `2^1024 - 2^970` (the midpoint
between the largest finite double and `2^1024`; the tie goes to the even
significand, which is Infinity's side). -/
def maxFiniteBound : Nat := 2 ^ 1024 - 2 ^ 970

/-- Value of an ASCII decimal digit. -/
def digitVal (c : Char) : Nat := c.toNat - '0'.toNat

/-- Accumulate digit values left to right in the given base. -/
def baseValAux (base : Nat) (f : Char → Nat) (acc : Nat) : List Char → Nat
  | [] => acc
  | c :: rest => baseValAux base f (acc * base + f c) rest

/-- Value of a decimal digit run, continuing from `acc`. -/
def decDigitsVal (acc : Nat) (cs : List Char) : Nat := baseValAux 10 digitVal acc cs

/-- ASCII hex digit. -/
def isHexDigitCh (c : Char) : Bool :=
  isDigitCh c || ('a' ≤ c && c ≤ 'f') || ('A' ≤ c && c ≤ 'F')

/-- ASCII octal digit. -/
def isOctDigitCh (c : Char) : Bool := '0' ≤ c && c ≤ '7'

/-- ASCII binary digit. -/
def isBinDigitCh (c : Char) : Bool := c == '0' || c == '1'

/-- Value of an ASCII hex digit. -/
def hexDigitVal (c : Char) : Nat :=
  if isDigitCh c then digitVal c
  else if 'a' ≤ c && c ≤ 'f' then c.toNat - 'a'.toNat + 10
  else c.toNat - 'A'.toNat + 10

/-- Parse the trailing ExponentPart of the `Number` grammar: the empty
tail means exponent 0; otherwise `e`/`E`, an optional sign and one or
more digits must fill the whole remainder. -/
def parseExpPart : List Char → Option Int
  | [] => some 0
  | c :: rest =>
    if c == 'e' || c == 'E' then
      match rest with
      | '+' :: r =>
        if !r.isEmpty && r.all isDigitCh then some (Int.ofNat (decDigitsVal 0 r)) else none
      | '-' :: r =>
        if !r.isEmpty && r.all isDigitCh then some (-(Int.ofNat (decDigitsVal 0 r))) else none
      | r =>
        if !r.isEmpty && r.all isDigitCh then some (Int.ofNat (decDigitsVal 0 r)) else none
    else none

/-- Parse a complete unsigned decimal literal of the `Number` grammar
(`DecimalDigits ['.' DecimalDigits?] ExponentPart?` or
`'.' DecimalDigits ExponentPart?`), returning the mantissa digit value
`d` and the power-of-ten scale `e` so that the literal's exact value is
`d * 10 ^ e`; `none` when the characters are not such a literal. -/
def decMV (cs : List Char) : Option (Nat × Int) :=
  let ip := cs.takeWhile isDigitCh
  let rest1 := cs.dropWhile isDigitCh
  match ip, rest1 with
  | [], '.' :: r =>
    let fp := r.takeWhile isDigitCh
    let rest2 := r.dropWhile isDigitCh
    if fp.isEmpty then none
    else
      match parseExpPart rest2 with
      | some e => some (decDigitsVal 0 fp, e - Int.ofNat fp.length)
      | none => none
  | [], _ => none
  | _ :: _, '.' :: r =>
    let fp := r.takeWhile isDigitCh
    let rest2 := r.dropWhile isDigitCh
    match parseExpPart rest2 with
    | some e => some (decDigitsVal (decDigitsVal 0 ip) fp, e - Int.ofNat fp.length)
    | none => none
  | _ :: _, _ =>
    match parseExpPart rest1 with
    | some e => some (decDigitsVal 0 ip, e)
    | none => none

/-- Is the exact value `d * 10 ^ e` strictly below the Infinity threshold
of the double conversion?  Decided exactly in integer arithmetic. -/
def mvSmall (d : Nat) (e : Int) : Bool :=
  if 0 ≤ e then decide (d * 10 ^ e.toNat < maxFiniteBound)
  else decide (d < maxFiniteBound * 10 ^ (-e).toNat)

/-- Parse a complete non-decimal integer literal of the `Number` grammar
(`0x…`, `0o…`, `0b…`, unsigned) and return its value. -/
def radixVal : List Char → Option Nat
  | '0' :: x :: rest =>
    if (x == 'x' || x == 'X') && !rest.isEmpty && rest.all isHexDigitCh then
      some (baseValAux 16 hexDigitVal 0 rest)
    else if (x == 'o' || x == 'O') && !rest.isEmpty && rest.all isOctDigitCh then
      some (baseValAux 8 digitVal 0 rest)
    else if (x == 'b' || x == 'B') && !rest.isEmpty && rest.all isBinDigitCh then
      some (baseValAux 2 digitVal 0 rest)
    else none
  | _ => none

/-- JS `isFinite(s)` for a string argument: the whole trimmed string must
convert to a finite number under the `Number` grammar.  The empty (or
all-whitespace) string converts to 0; `Infinity` fails the digit
requirement of the decimal literal; and a literal whose exact value
reaches `maxFiniteBound` rounds to Infinity and is not finite. -/
def jsNumberFinite (s : String) : Bool :=
  let cs := ((s.data.dropWhile jsWS).reverse.dropWhile jsWS).reverse
  match cs with
  | [] => true
  | _ =>
    match radixVal cs with
    | some v => decide (v < maxFiniteBound)
    | none =>
      match decMV (afterSign cs) with
      | some (d, e) => mvSmall d e
      | none => false

/-- index.js `isNumeric` on a string. -/
def jsIsNumericStr (s : String) : Bool := jsParseFloatDefined s && jsNumberFinite s

mutual

/-- JS array-element stringification (`Array.prototype.toString` joins
with `,`, rendering null as the empty string). -/
def elemStr : JsonVal → String
  | .nil => ""
  | .str s => s
  | .int n => toString n
  | .arr xs => elemStrJoin xs
  | .obj _ => "[object Object]"

/-- Join the element strings of an array with commas. -/
def elemStrJoin : List JsonVal → String
  | [] => ""
  | [x] => elemStr x
  | x :: y :: rest => elemStr x ++ "," ++ elemStrJoin (y :: rest)

end

/-- JS top-level `String(v)` coercion for the values modelled here. -/
def topStr : JsonVal → String
  | .nil => "null"
  | .str s => s
  | .int n => toString n
  | .arr xs => elemStrJoin xs
  | .obj _ => "[object Object]"

/-- index.js `isNumeric` applied to an arbitrary reply value: both
`parseFloat` and `Number` coerce non-string arguments through the same
string conversion for the value shapes modelled here. -/
def jsIsNumericVal (v : JsonVal) : Bool := jsIsNumericStr (topStr v)

/- ### Command gateway (src/redis.js) -/

/-- redis.js `POOL_SIZE`. -/
def POOL_SIZE : Nat := 10

/-- redis.js `BANNED_COMMANDS` (already lowercase in the source; the
`.map(toLowerCase)` there is the identity). -/
def BANNED_COMMANDS : List String :=
  [ "flushdb", "flushall", "dump", "configset", "config", "slaveof",
    "slaveofnoone", "replicaof", "replicaofnoone", "modulelist",
    "moduleload", "moduleunload", "monitor", "memorydoctor", "memoryhelp",
    "memorymallocstats", "memorypurge", "memorystats", "memoryusage",
    "shutdown", "save", "slowlog", "sync", "scriptdebug", "scriptflush",
    "scriptkill", "scriptload", "scriptexists", "bgsave", "bgrewriteaof",
    "keys" ]

/-- redis.js `formatError`: first line of `error.toString()`, carriage
returns removed, then the first occurrence of `Error: ` and of `-ERR `
stripped. -/
def formatError (s : String) : String :=
  replaceFirst (replaceFirst (removeCR (firstLine s)) "Error: ") "-ERR "

deriving instance DecidableEq for Except

/-- One entry of a pipeline request: `{command, args}`. -/
structure PCommand where
  command : String
  args : List String
  deriving Repr, DecidableEq

/-- Outcomes supplied by the external backend library for one gateway
call: what `acquireConnection` would produce (the connection id, or the
`toString()` text of the value it throws), what `sendCommand` replies
(or throws), and what `pipeline().flush()` replies (or throws). -/
structure GEnv where
  acquire : Except String Nat
  send : Except String JsonVal
  flush : Except String (List JsonVal)

/-- Observable interactions with the pool and the backend during one
gateway call, in order. -/
inductive GEvent where
  | acquire (c : Nat)
  | send (command : String) (args : List String) (c : Nat)
  | flushPipe (cmds : List PCommand) (c : Nat)
  | release (c : Nat)
  deriving Repr, DecidableEq

/-- Gateway response record with fields success, error (present only on
failure), status, result. -/
structure RResponse where
  success : Bool
  error : Option String
  status : Nat
  result : JsonVal
  deriving Repr

/-- redis.js `result === 'OK' ? {} : result` (strict equality with the
string literal). -/
def normalizeOK (r : JsonVal) : JsonVal :=
  match r with
  | .str s => if s == "OK" then .obj [] else .str s
  | other => other

/-- redis.js `handlePipelineCommand(dbNumber, commands)`.

Returns either the response or (as `Except.error`) the `toString()` text
of an exception that escapes the function (only the acquire on the first
line can escape: everything after runs inside try/finally).  The second
component is the list of observable events.  The pipeline object queues
commands locally and contacts the backend only at `flush`, so a queued
command of a batch that throws before `flush` is never sent; the queue
methods themselves are modelled as always accepting non-denylisted
command names (the library is command-agnostic).  The first denylisted
command in order triggers `throw new Error('Command <name> not
allowed.')`, caught by the function's own catch. -/
def handlePipelineCommand (db : Nat) (commands : List PCommand) (env : GEnv) :
    Except String RResponse × List GEvent :=
  match env.acquire with
  | .error e => (.error e, [])
  | .ok c =>
    match commands.find? (fun cmd => BANNED_COMMANDS.contains (lowerStr cmd.command)) with
    | some cmd =>
      (.ok { success := false
             error := some (formatError ("Error: " ++ ("Command " ++ cmd.command ++ " not allowed.")))
             status := 400
             result := .obj [] },
       [.acquire c, .release c])
    | none =>
      match env.flush with
      | .ok rs =>
        (.ok { success := true, error := none, status := 200, result := .arr rs },
         [.acquire c, .flushPipe commands c, .release c])
      | .error e =>
        (.ok { success := false, error := some (formatError e), status := 400, result := .obj [] },
         [.acquire c, .flushPipe commands c, .release c])

/-- redis.js `redisCommand(command, dbNumber, ...args)`.

In the source the pipeline's command list arrives as `args[0]`; the repo
has exactly two caller shapes (HTTP: a list of strings; script handlers:
`('PIPELINE', db, commands)`), so the command list is passed here as the
separate typed parameter `pipeArg`, ignored on the non-pipeline path
exactly as the string arguments are ignored on the pipeline path. -/
def redisCommand (command : String) (db : Nat) (args : List String)
    (pipeArg : List PCommand) (env : GEnv) : RResponse × List GEvent :=
  if (lowerStr command) == "pipeline" then
    match handlePipelineCommand db pipeArg env with
    | (.ok resp, tr) => (resp, tr)
    | (.error e, tr) =>
      ({ success := false, error := some (formatError e), status := 400, result := .obj [] }, tr)
  else if BANNED_COMMANDS.contains (lowerStr command) then
    ({ success := false, error := some "Command not allowed.", status := 403, result := .obj [] },
     [])
  else
    match env.acquire with
    | .error e =>
      ({ success := false, error := some (formatError e), status := 400, result := .obj [] }, [])
    | .ok c =>
      match env.send with
      | .ok r =>
        ({ success := true, error := none, status := 200, result := normalizeOK r },
         [.acquire c, .send command args c, .release c])
      | .error e =>
        ({ success := false, error := some (formatError e), status := 400, result := .obj [] },
         [.acquire c, .send command args c, .release c])

/- ### Reply-shape normalization (index.js handler, lines 131-167) -/

/-- index.js `forceArray` switch: only HMGET forces list output. -/
def forceArrayFor (cmdName : String) : Bool := (lowerStr cmdName) == "hmget"

/-- `xs.filter((_, i) => i % 2 === 0)`: the even-indexed elements. -/
def evensOf : List JsonVal → List JsonVal
  | [] => []
  | [a] => [a]
  | a :: _ :: rest => a :: evensOf rest

/-- `xs.filter((_, i) => i % 2 === 1)`: the odd-indexed elements. -/
def oddsOf : List JsonVal → List JsonVal
  | [] => []
  | [_] => []
  | _ :: b :: rest => b :: oddsOf rest

/-- JS `typeof k === 'string'` for the modelled values. -/
def isStrVal : JsonVal → Bool
  | .str _ => true
  | _ => false

/-- JS strict inequality `a !== b` on reply values.  Two arrays (or two
objects) are distinct heap references in every reachable comparison, so
`!==` is true for them; primitive values compare by value; values of
different types are always `!==`. -/
def strictNeq : JsonVal → JsonVal → Bool
  | .str a, .str b => a != b
  | .int a, .int b => a != b
  | .nil, .nil => false
  | .arr _, .arr _ => true
  | .obj _, .obj _ => true
  | _, _ => true

/-- JS object property assignment `m[k] = v`: an existing key keeps its
insertion position and gets the new value; a new key is appended. -/
def objInsert (m : List (String × JsonVal)) (k : String) (v : JsonVal) :
    List (String × JsonVal) :=
  if m.any (fun p => p.1 == k) then
    m.map (fun p => if p.1 == k then (k, v) else p)
  else m ++ [(k, v)]

/-- The `(result[i], result[i+1])` pairs walked by the conversion loop
`for (let i = 0; i < result.length; i += 2)`.  An odd-length tail is
unreachable under the even-length guard. -/
def pairsOf : List JsonVal → List (JsonVal × JsonVal)
  | a :: b :: rest => (a, b) :: pairsOf rest
  | _ => []

/-- The object built by the conversion loop
`resultValue[result[i]] = result[i + 1]` (keys coerced to strings by JS
property assignment). -/
def buildObj (xs : List JsonVal) : List (String × JsonVal) :=
  (pairsOf xs).foldl (fun m p => objInsert m (topStr p.1) p.2) []

/-- The inner guard of the conversion (index.js lines 147-158):
`allKeysAreStrings && keysAndValuesDiffer && !(allKeysNumeric &&
allValuesNumeric)`. -/
def rekeyCond (xs : List JsonVal) : Bool :=
  let keys := evensOf xs
  let values := oddsOf xs
  let allKeysNumeric := keys.all jsIsNumericVal
  let allValuesNumeric := values.all jsIsNumericVal
  let allKeysAreStrings := keys.all isStrVal
  let keysAndValuesDiffer := (keys.zip values).any (fun p => strictNeq p.1 p.2)
  allKeysAreStrings && keysAndValuesDiffer && !(allKeysNumeric && allValuesNumeric)

/-- index.js lines 131-167: given the command name and
`redisResult.result`, produce `resultValue`. -/
def normalizeResult (cmdName : String) (result : JsonVal) : JsonVal :=
  match result with
  | .arr xs =>
    if !forceArrayFor cmdName && xs.length % 2 == 0 && decide (xs.length > 0) then
      if rekeyCond xs then .obj (buildObj xs) else .arr xs
    else .arr xs
  | other => other

/-- Error text thrown by `handleEvalsha` when the dynamic import fails
with `ERR_MODULE_NOT_FOUND`. -/
def scriptNotFoundMsg (hash : String) : String :=
  "Script " ++ hash ++ " not found. Are you sure it exists?"

/-- Error text thrown by `handleEvalsha` when the module exports no
`invoke` function. -/
def noInvokeMsg (hash : String) : String :=
  "Script " ++ hash ++ ".js does not export an invoke function"

/-- How `import('./scripts/<hash>.js')` resolves: no such module, a
module without an `invoke` export, or a registered handler whose
invocation produced the given outcome (its return value, or the message
of the error it threw). -/
inductive ScriptResolution where
  | notFound
  | noInvoke
  | registered (outcome : Except String JsonVal)

/-- evalsha_handler.js `handleEvalsha`: the script result, or the message
of the error the function throws. -/
def handleEvalsha (scriptHash : String) (res : ScriptResolution) : Except String JsonVal :=
  match res with
  | .notFound => .error (scriptNotFoundMsg scriptHash)
  | .noInvoke => .error (noInvokeMsg scriptHash)
  | .registered outcome => outcome

/-- What the index.js EVALSHA branch does with the `handleEvalsha`
outcome: a 200 response with the script result, a 400 response carrying
the error message, or falling through to regular command handling. -/
inductive EvalshaOutcome where
  | scriptOk (v : JsonVal)
  | scriptErr (msg : String)
  | nativeFallthrough
  deriving Repr

/-- index.js lines 94-125: try `handleEvalsha`; on error, fall through to
regular Redis handling when the message includes `not found`, otherwise
answer 400 with the message. -/
def evalshaDispatch (scriptHash : String) (res : ScriptResolution) : EvalshaOutcome :=
  match handleEvalsha scriptHash res with
  | .ok v => .scriptOk v
  | .error m =>
    if containsSubstr m "not found" then .nativeFallthrough else .scriptErr m

/-- The HTTP-level result of an EVALSHA request: a script response, a
script error response (status 400), or the native `redisCommand` path. -/
inductive EvalshaHttpResult where
  | scriptResponse (v : JsonVal)
  | scriptError (msg : String)
  | native (r : RResponse × List GEvent)

/-- The full index.js EVALSHA request flow: dispatch, and on fallthrough
forward the original command name and arguments to `redisCommand`. -/
def evalshaRequest (cmdName : String) (scriptHash : String) (db : Nat)
    (args : List String) (res : ScriptResolution) (env : GEnv) : EvalshaHttpResult :=
  match evalshaDispatch scriptHash res with
  | .scriptOk v => .scriptResponse v
  | .scriptErr m => .scriptError m
  | .nativeFallthrough => .native (redisCommand cmdName db args [] env)

/- ### The two registered script handlers of the repository -/

/-- The sismember script: set names where the membership reply was the
number 1, in order (`responses.result.forEach` with `response === 1`). -/
def collectMembers (sets : List String) (rs : List JsonVal) : List JsonVal :=
  ((rs.zip sets).filter (fun p =>
    match p.1 with
    | .int 1 => true
    | _ => false)).map (fun p => .str p.2)

/-- scripts/931c1c2f8694f9133c3b93929d3b1eb0ded545eb.js `invoke`: check
which sets contain a user id via pipelined SISMEMBER commands.  On a
failed pipeline the script returns the empty result list; its only
thrown error is the argument-count message.  The success branch calls
`responses.result.forEach`, which would throw the recorded TypeError text
if the result were not an array (unreachable with the real gateway). -/
def sismemberInvoke (db : Nat) (args : List String) (env : GEnv) : Except String JsonVal :=
  if args.length < 2 then
    .error "Required arguments: <user_id> <set_1> <set_2> ..."
  else
    let user_id := args.getD 1 ""
    let sets := args.drop 2
    let pipeline := sets.map (fun s => PCommand.mk "sismember" [s, user_id])
    let responses := (redisCommand "PIPELINE" db [] pipeline env).1
    if responses.success then
      match responses.result with
      | .arr rs => .ok (.arr (collectMembers sets rs))
      | _ => .error "responses.result.forEach is not a function"
    else .ok (.arr [])

/-- The session script module (imports `../redis.js`): HSET the key-value
pairs (when present) and EXPIRE the session key in one pipeline; throw
`Operation failed` if the pipeline response is unsuccessful, else return
the string OK. -/
def sessionInvoke (db : Nat) (args : List String) (env : GEnv) : Except String JsonVal :=
  let sessionId := args.getD 1 ""
  let keyValuePairs := (args.drop 2).dropLast
  let expirationTime := args.getD (args.length - 1) ""
  let pipeline :=
    (if decide (keyValuePairs.length > 0) then
      [PCommand.mk "hset" (sessionId :: keyValuePairs)]
     else []) ++
    [PCommand.mk "expire" [sessionId, expirationTime]]
  let responses := (redisCommand "PIPELINE" db [] pipeline env).1
  if responses.success then .ok (.str "OK") else .error "Operation failed"

/- ### Connection pool state (src/redis.js RedisConnectionPool)

Connections are identified by numeric ids.  `pools` models the private
`#pools` field: a Map from database index to a Map from connection to
last-used timestamp; `inUse` models `#inUse`: a Map from connection to
`{dbNumber, timestamp}`.  JS Maps are insertion-ordered, so both levels
are association lists; `set` overwrites in place, `delete` removes. -/

/-- The record stored in `#inUse` for a checked-out connection. -/
structure InUseRec where
  dbNumber : Nat
  timestamp : Nat
  deriving Repr, DecidableEq

/-- The mutable state of the pool instance. -/
structure PoolState where
  pools : List (Nat × List (Nat × Nat))
  inUse : List (Nat × InUseRec)
  deriving Repr, DecidableEq

/-- `#pools.has(d)`. -/
def poolsHas (d : Nat) (st : PoolState) : Bool := st.pools.any (fun p => p.1 == d)

/-- `#pools.get(d)` viewed as an association list (empty when absent;
every dereference in the source happens with the entry present). -/
def poolOf (d : Nat) (st : PoolState) : List (Nat × Nat) :=
  match st.pools.find? (fun p => p.1 == d) with
  | some p => p.2
  | none => []

/-- `#pools.set(d, m)`. -/
def setPoolEntry (d : Nat) (m : List (Nat × Nat))
    (pools : List (Nat × List (Nat × Nat))) : List (Nat × List (Nat × Nat)) :=
  if pools.any (fun p => p.1 == d) then
    pools.map (fun p => if p.1 == d then (d, m) else p)
  else pools ++ [(d, m)]

/-- `#inUse.has(c)`. -/
def inUseHasC (c : Nat) (st : PoolState) : Bool := st.inUse.any (fun p => p.1 == c)

/-- JS `Map.set` on a connection-to-timestamp map. -/
def setAssoc (m : List (Nat × Nat)) (c v : Nat) : List (Nat × Nat) :=
  if m.any (fun p => p.1 == c) then
    m.map (fun p => if p.1 == c then (c, v) else p)
  else m ++ [(c, v)]

/-- redis.js `#findAvailableConnection(dbNumber)`: scan the pool map in
insertion order for a client not in `#inUse`; move it from the pool to
`#inUse` stamped with the current time. -/
def findAvailableConnection (d now : Nat) (st : PoolState) : Option Nat × PoolState :=
  match (poolOf d st).find? (fun q => !(inUseHasC q.1 st)) with
  | some q =>
    (some q.1,
     { pools := setPoolEntry d ((poolOf d st).filter (fun q2 => q2.1 != q.1)) st.pools
       inUse := st.inUse ++ [(q.1, ⟨d, now⟩)] })
  | none => (none, st)

/-- redis.js `releaseConnection(client, dbNumber)`: a no-op unless the
client is checked out; otherwise delete it from `#inUse` and re-add it to
the pool for `dbNumber` with a refreshed timestamp. -/
def releaseConnection (c d now : Nat) (st : PoolState) : PoolState :=
  if inUseHasC c st then
    { pools := setPoolEntry d (setAssoc (poolOf d st) c now) st.pools
      inUse := st.inUse.filter (fun p => p.1 != c) }
  else st

/-- redis.js `#addConnectionToPool(dbNumber)` after `createConnection`
fulfilled with client `c`. -/
def addConnectionToPool (d c now : Nat) (st : PoolState) : PoolState :=
  { st with pools := setPoolEntry d (setAssoc (poolOf d st) c now) st.pools }

/-- The connections of the fulfilled creation attempts, in settlement
order. -/
def initSuccesses (outcomes : List (Except String Nat)) : List Nat :=
  outcomes.filterMap (fun o =>
    match o with
    | .ok c => some c
    | .error _ => none)

/-- The rejection reason `Promise.all` settles with (the first rejected
attempt), if any. -/
def firstInitError (outcomes : List (Except String Nat)) : Option String :=
  outcomes.findSome? (fun o =>
    match o with
    | .error e => some e
    | .ok _ => none)

/-- redis.js `initialize(dbNumber)`: a no-op when the pool entry exists;
otherwise set an empty pool entry, then run `POOL_SIZE` creation attempts
under `Promise.all`.  Every fulfilled attempt adds its connection to the
pool entry even when a sibling attempt rejects; if any attempt rejects,
the rejection is logged and rethrown to the caller — the pool entry and
the already-added connections are kept.  `outcomes` lists the creation
attempts (length `POOL_SIZE` in every reachable call). -/
def initPool (d : Nat) (outcomes : List (Except String Nat)) (now : Nat)
    (st : PoolState) : Except String Unit × PoolState :=
  if poolsHas d st then (.ok (), st)
  else
    let st1 : PoolState := { st with pools := setPoolEntry d [] st.pools }
    let st2 := (initSuccesses outcomes).foldl (fun s c => addConnectionToPool d c now s) st1
    match firstInitError outcomes with
    | some e => (.error e, st2)
    | none => (.ok (), st2)

/-- redis.js `acquireConnection(dbNumber)`: lazily initialize, then take
an available connection.  When none is available, `#waitForConnection`
re-polls every 100ms for up to `ACQUIRE_TIMEOUT`; a release by another
task is a separate `releaseConnection` step between gateway steps, so
within one step the wait ends in the timeout error. -/
def acquireConnection (d : Nat) (outcomes : List (Except String Nat)) (now : Nat)
    (st : PoolState) : Except String Nat × PoolState :=
  match (if !poolsHas d st then initPool d outcomes now st else (.ok (), st)) with
  | (.error e, st1) => (.error e, st1)
  | (.ok _, st1) =>
    match findAvailableConnection d now st1 with
    | (some c, st2) => (.ok c, st2)
    | (none, st2) =>
      (.error ("Timeout acquiring Redis connection for database " ++ toString d), st2)

/-- redis.js `#cleanupStaleConnections`, one snapshotted idle entry whose
staleness check passed and whose awaited `ping()` rejected (lines 37-52):
on resume the reaper deletes the probed client from the live pool map —
a no-op if another task acquired it during the await — closes it, and
awaits a replacement creation.  `replacement` is `some c` when
`createConnection` fulfils with `c`, `none` when it rejects (then the
cleanup pass aborts, leaving the pool short). -/
def reapStaleDeadEntry (d c : Nat) (replacement : Option Nat) (now : Nat)
    (st : PoolState) : PoolState :=
  let st1 : PoolState :=
    { st with pools := setPoolEntry d ((poolOf d st).filter (fun q => q.1 != c)) st.pools }
  match replacement with
  | some c2 => addConnectionToPool d c2 now st1
  | none => st1

/-- redis.js `#cleanupStaleConnections`, one `#inUse` entry held past
`ACQUIRE_TIMEOUT` (lines 55-70): delete it from `#inUse`, close it, and
add a replacement to the pool of the recorded database. -/
def reapStuckEntry (c recDb : Nat) (replacement : Option Nat) (now : Nat)
    (st : PoolState) : PoolState :=
  let st1 : PoolState := { st with inUse := st.inUse.filter (fun p => p.1 != c) }
  match replacement with
  | some c2 => addConnectionToPool recDb c2 now st1
  | none => st1

/-- `|idle(d)|`. -/
def idleCount (d : Nat) (st : PoolState) : Nat := (poolOf d st).length

/-- `|checkedOut(d)|`: checked-out connections recorded for database `d`. -/
def inUseCountDb (d : Nat) (st : PoolState) : Nat :=
  (st.inUse.filter (fun p => p.2.dbNumber == d)).length

/-- No duplicates in a list of connection ids. -/
def nodupB : List Nat → Bool
  | [] => true
  | x :: rest => !(rest.any (fun y => y == x)) && nodupB rest

/-- The pool bookkeeping invariant claimed by the spec, as an executable
check: unique database keys, globally unique idle connections, unique
checked-out connections, the idle and checked-out sets disjoint, idle
plus checked-out for each database at most `POOL_SIZE`, and every
checked-out record pointing at an existing pool entry. -/
def InvB (st : PoolState) : Bool :=
  nodupB (st.pools.map Prod.fst) &&
  nodupB ((st.pools.map (fun p => p.2.map Prod.fst)).flatten) &&
  nodupB (st.inUse.map Prod.fst) &&
  st.pools.all (fun p => p.2.all (fun q => !(inUseHasC q.1 st))) &&
  st.pools.all (fun p => decide (p.2.length + inUseCountDb p.1 st ≤ POOL_SIZE)) &&
  st.inUse.all (fun p => poolsHas p.2.dbNumber st)

/- ### Concrete scenario inputs used by the evaluation theorems -/

/-- The pool state at process start: no pools, nothing checked out. -/
def poolEmpty : PoolState := ⟨[], []⟩

/-- Ten fulfilled creation attempts, connections 1 to 10. -/
def tenGoodOutcomes : List (Except String Nat) :=
  [.ok 1, .ok 2, .ok 3, .ok 4, .ok 5, .ok 6, .ok 7, .ok 8, .ok 9, .ok 10]

/-- Creation attempts where only the first fulfils and the other nine
reject. -/
def c2FailOutcomes : List (Except String Nat) :=
  [.ok 1, .error "connection refused", .error "connection refused",
   .error "connection refused", .error "connection refused",
   .error "connection refused", .error "connection refused",
   .error "connection refused", .error "connection refused",
   .error "connection refused"]

/-- Reaper interleaving scenario, before the reaper resumes: at t=0 the
first acquire initializes db 0 with connections 1-10 and checks out
connection 1; its caller releases it at t=0.  At t=400000 the reaper pass
starts; every idle connection has been idle 400000 ms ≥ 300000 ms, so the
reaper pings the first snapshotted entry, connection 2, and suspends on
the await.  During that await another request acquires — taking
connection 2, the first available entry.  This is the state when the
ping finally rejects (the connection is dead). -/
def reaperScenarioPreState : PoolState :=
  (acquireConnection 0 [] 400000
    (releaseConnection 1 0 0 (acquireConnection 0 tenGoodOutcomes 0 poolEmpty).2)).2

/-- The state after the reaper resumes from the failed ping of connection
2: it deletes connection 2 from the pool map (a no-op — the interleaved
acquire already moved it to `#inUse`), closes it, and adds freshly
created replacement connection 11. -/
def reaperScenarioPostState : PoolState :=
  reapStaleDeadEntry 0 2 (some 11) 400000 reaperScenarioPreState

/-- A backend whose pipeline flush answers with the single reply OK. -/
def okPipeEnv : GEnv := ⟨.ok 5, .ok .nil, .ok [.str "OK"]⟩

/- ### Helper lemmas: string manipulation -/

theorem leadsWith_append (p r : List Char) : leadsWith p (p ++ r) = true := by
  induction p with
  | nil => rfl
  | cons a as ih => simp [leadsWith, ih]

theorem dropSeg_append (p r : List Char) (hp : p ≠ []) : dropSeg p (p ++ r) = r := by
  cases p with
  | nil => exact absurd rfl hp
  | cons a as =>
    show dropSeg (a :: as) (a :: (as ++ r)) = r
    have hl : leadsWith (a :: as) (a :: (as ++ r)) = true := leadsWith_append (a :: as) r
    rw [dropSeg, if_pos hl]
    exact List.drop_left (a :: as) r

theorem dropSeg_no_occ (p s : List Char) (h : hasSubseg p s = false) : dropSeg p s = s := by
  induction s with
  | nil => rfl
  | cons c rest ih =>
    rw [hasSubseg, Bool.or_eq_false_iff] at h
    rw [dropSeg, if_neg (by rw [h.1]; exact Bool.false_ne_true), ih h.2]

theorem hasSubseg_append_right (p a b : List Char) (h : hasSubseg p b = true) :
    hasSubseg p (a ++ b) = true := by
  induction a with
  | nil => exact h
  | cons c rest ih => rw [List.cons_append, hasSubseg, ih, Bool.or_true]

theorem takeWhile_all (p : Char → Bool) (l : List Char) (h : ∀ c ∈ l, p c = true) :
    l.takeWhile p = l := by
  induction l with
  | nil => rfl
  | cons c rest ih =>
    rw [List.takeWhile_cons, h c (List.mem_cons_self c rest),
      ih fun x hx => h x (List.mem_cons_of_mem c hx)]
    rfl

theorem filter_all (p : Char → Bool) (l : List Char) (h : ∀ c ∈ l, p c = true) :
    l.filter p = l := by
  induction l with
  | nil => rfl
  | cons c rest ih =>
    rw [List.filter_cons, if_pos (h c (List.mem_cons_self c rest)),
      ih fun x hx => h x (List.mem_cons_of_mem c hx)]

/-- When an error message holds no newline and no carriage return, and no
occurrence of the wire-protocol reply prefix, `formatError` applied to
the `toString()` text of `new Error(m)` gives back exactly `m`. -/
theorem formatError_of_error_message (m : String)
    (hnl : ∀ c ∈ m.data, c ≠ '\n') (hcr : ∀ c ∈ m.data, c ≠ '\r')
    (herr : hasSubseg "-ERR ".data m.data = false) :
    formatError ("Error: " ++ m) = m := by
  have hdata : ("Error: " ++ m).data = "Error: ".data ++ m.data := rfl
  have hlitn : ∀ c ∈ "Error: ".data, decide (c ≠ '\n') = true := by decide
  have hlitr : ∀ c ∈ "Error: ".data, decide (c ≠ '\r') = true := by decide
  have h1 : firstLine ("Error: " ++ m) = String.mk ("Error: ".data ++ m.data) := by
    unfold firstLine
    rw [hdata]
    congr 1
    refine takeWhile_all _ _ fun c hc => ?_
    rcases List.mem_append.mp hc with hmem | hmem
    · exact hlitn c hmem
    · exact decide_eq_true (hnl c hmem)
  have h2 : removeCR (String.mk ("Error: ".data ++ m.data)) =
      String.mk ("Error: ".data ++ m.data) := by
    unfold removeCR
    congr 1
    refine filter_all _ _ fun c hc => ?_
    rcases List.mem_append.mp hc with hmem | hmem
    · exact hlitr c hmem
    · exact decide_eq_true (hcr c hmem)
  have h3 : replaceFirst (String.mk ("Error: ".data ++ m.data)) "Error: " =
      String.mk m.data := by
    have := dropSeg_append "Error: ".data m.data (by decide)
    unfold replaceFirst
    rw [this]
  have h4 : replaceFirst (String.mk m.data) "-ERR " = String.mk m.data := by
    unfold replaceFirst
    congr 1
    exact dropSeg_no_occ "-ERR ".data m.data herr
  calc formatError ("Error: " ++ m)
      = replaceFirst (replaceFirst (removeCR (firstLine ("Error: " ++ m))) "Error: ") "-ERR " := rfl
    _ = replaceFirst (replaceFirst (removeCR (String.mk ("Error: ".data ++ m.data))) "Error: ") "-ERR " := by rw [h1]
    _ = replaceFirst (replaceFirst (String.mk ("Error: ".data ++ m.data)) "Error: ") "-ERR " := by rw [h2]
    _ = replaceFirst (String.mk m.data) "-ERR " := by rw [h3]
    _ = String.mk m.data := h4
    _ = m := rfl

/- ### Helper lemmas: the gateway -/

theorem banned_not_pipeline (command : String)
    (h : BANNED_COMMANDS.contains (lowerStr command) = true) :
    ((lowerStr command) == "pipeline") = false := by
  by_cases he : (lowerStr command) = "pipeline"
  · rw [he] at h
    exact absurd h (by decide)
  · exact beq_eq_false_iff_ne.mpr he

theorem redisCommand_banned_single (command : String) (db : Nat) (args : List String)
    (pipeArg : List PCommand) (env : GEnv)
    (hban : BANNED_COMMANDS.contains (lowerStr command) = true) :
    redisCommand command db args pipeArg env =
      ({ success := false, error := some "Command not allowed.", status := 403,
         result := .obj [] }, []) := by
  have h1 := banned_not_pipeline command hban
  have h2 := hban
  simp only [List.contains_eq_any_beq] at h2
  have h3 : (lowerStr command) ∈ BANNED_COMMANDS := by
    obtain ⟨x, hx, hbeq⟩ := List.any_eq_true.mp h2
    rw [eq_of_beq hbeq]
    exact hx
  simp [redisCommand, h1, hban, h3]

theorem redisCommand_pipeline (cmdName : String) (db : Nat) (args : List String)
    (pipeArg : List PCommand) (env : GEnv) (hpipe : (lowerStr cmdName) = "pipeline") :
    redisCommand cmdName db args pipeArg env =
      (match handlePipelineCommand db pipeArg env with
       | (.ok resp, tr) => (resp, tr)
       | (.error e, tr) =>
         ({ success := false, error := some (formatError e), status := 400,
            result := .obj [] }, tr)) := by
  simp [redisCommand, hpipe]

theorem handlePipeline_acquire_error (db : Nat) (commands : List PCommand) (env : GEnv)
    (e : String) (hacq : env.acquire = .error e) :
    handlePipelineCommand db commands env = (.error e, []) := by
  unfold handlePipelineCommand
  rw [hacq]

theorem handlePipeline_banned_found (db : Nat) (commands : List PCommand) (env : GEnv)
    (c : Nat) (offending : PCommand) (hacq : env.acquire = .ok c)
    (hfind : commands.find?
      (fun cmd => BANNED_COMMANDS.contains (lowerStr cmd.command)) = some offending) :
    handlePipelineCommand db commands env =
      (.ok { success := false
             error := some (formatError
               ("Error: " ++ ("Command " ++ offending.command ++ " not allowed.")))
             status := 400
             result := .obj [] },
       [.acquire c, .release c]) := by
  unfold handlePipelineCommand
  rw [hacq, hfind]

theorem handlePipeline_flush_ok (db : Nat) (commands : List PCommand) (env : GEnv)
    (c : Nat) (rs : List JsonVal) (hacq : env.acquire = .ok c)
    (hnone : commands.find?
      (fun cmd => BANNED_COMMANDS.contains (lowerStr cmd.command)) = none)
    (hflush : env.flush = .ok rs) :
    handlePipelineCommand db commands env =
      (.ok { success := true, error := none, status := 200, result := .arr rs },
       [.acquire c, .flushPipe commands c, .release c]) := by
  unfold handlePipelineCommand
  rw [hacq, hnone, hflush]

theorem redisCommand_single_send_ok (command : String) (db : Nat) (args : List String)
    (pipeArg : List PCommand) (env : GEnv) (c : Nat) (r : JsonVal)
    (hnp : ((lowerStr command) == "pipeline") = false)
    (hnb : BANNED_COMMANDS.contains (lowerStr command) = false)
    (hacq : env.acquire = .ok c) (hsend : env.send = .ok r) :
    redisCommand command db args pipeArg env =
      ({ success := true, error := none, status := 200, result := normalizeOK r },
       [.acquire c, .send command args c, .release c]) := by
  have h3 : (lowerStr command) ∉ BANNED_COMMANDS := by
    intro hm
    have hc : BANNED_COMMANDS.contains (lowerStr command) = true := by
      simp only [List.contains_eq_any_beq, List.any_eq_true]
      exact ⟨_, hm, by simp⟩
    exact Bool.false_ne_true (hnb ▸ hc)
  simp [redisCommand, hnp, hnb, h3, hacq, hsend]

/- ### Claim theorems -/

/-- C5: a single (non-pipeline) command whose name is on the denylist
(case-insensitively) makes the gateway return success false, error
`Command not allowed.`, status 403 (and an empty result) without
acquiring any connection and without sending anything to the backend:
the whole observable trace is empty. -/
theorem denylisted_single_command_403_no_connection (command : String) (db : Nat)
    (args : List String) (pipeArg : List PCommand) (env : GEnv)
    (hban : BANNED_COMMANDS.contains (lowerStr command) = true) :
    redisCommand command db args pipeArg env =
      ({ success := false, error := some "Command not allowed.", status := 403,
         result := .obj [] }, []) :=
  redisCommand_banned_single command db args pipeArg env hban

/-- Witness for C5 at the concrete denylisted command FLUSHDB. -/
theorem denylisted_single_command_403_no_connection_witness :
    BANNED_COMMANDS.contains ((lowerStr "FLUSHDB")) = true ∧
    redisCommand "FLUSHDB" 0 [] [] ⟨.ok 1, .ok .nil, .ok []⟩ =
      ({ success := false, error := some "Command not allowed.", status := 403,
         result := .obj [] }, []) :=
  ⟨by decide,
   denylisted_single_command_403_no_connection "FLUSHDB" 0 [] []
     ⟨.ok 1, .ok .nil, .ok []⟩ (by decide)⟩

/-- C3: when a submitted pipeline contains at least one denylisted
command, the gateway answers a single failure (success false, status
400) and no command of the pipeline is sent to the backend — the trace
holds no send and no flush event, in particular nothing for the commands
placed before the denylisted one. -/
theorem pipeline_with_denylisted_command_sends_nothing (cmdName : String) (db : Nat)
    (args : List String) (commands : List PCommand) (env : GEnv)
    (hpipe : (lowerStr cmdName) = "pipeline")
    (hban : ∃ cmd ∈ commands, BANNED_COMMANDS.contains (lowerStr cmd.command) = true) :
    ((redisCommand cmdName db args commands env).1.success = false ∧
     (redisCommand cmdName db args commands env).1.status = 400) ∧
    ∀ ev ∈ (redisCommand cmdName db args commands env).2,
      (∀ cn aa k, ev ≠ GEvent.send cn aa k) ∧ (∀ cs k, ev ≠ GEvent.flushPipe cs k) := by
  have hfind : (commands.find?
      (fun cmd => BANNED_COMMANDS.contains (lowerStr cmd.command))).isSome = true := by
    obtain ⟨cmd, hmem, hc⟩ := hban
    cases hf : commands.find? (fun cmd => BANNED_COMMANDS.contains (lowerStr cmd.command)) with
    | some x => rfl
    | none =>
      have hnone := List.find?_eq_none.mp hf cmd hmem
      rw [hc] at hnone
      exact absurd rfl hnone
  rw [redisCommand_pipeline cmdName db args commands env hpipe]
  cases hacq : env.acquire with
  | error e =>
    rw [handlePipeline_acquire_error db commands env e hacq]
    refine ⟨⟨rfl, rfl⟩, ?_⟩
    intro ev hev
    simp at hev
  | ok c =>
    obtain ⟨off, hoff⟩ := Option.isSome_iff_exists.mp hfind
    rw [handlePipeline_banned_found db commands env c off hacq hoff]
    refine ⟨⟨rfl, rfl⟩, ?_⟩
    intro ev hev
    rcases List.mem_cons.mp hev with h | h
    · subst h
      exact ⟨fun _ _ _ => by simp, fun _ _ => by simp⟩
    · rcases List.mem_cons.mp h with h2 | h2
      · subst h2
        exact ⟨fun _ _ _ => by simp, fun _ _ => by simp⟩
      · simp at h2

/-- Witness for C3: a pipeline whose second command is FLUSHDB. -/
theorem pipeline_with_denylisted_command_sends_nothing_witness :
    ((lowerStr "PIPELINE") = "pipeline") ∧
    (∃ cmd ∈ [PCommand.mk "set" ["k", "v"], PCommand.mk "FLUSHDB" []],
      BANNED_COMMANDS.contains (lowerStr cmd.command) = true) ∧
    (((redisCommand "PIPELINE" 0 []
        [PCommand.mk "set" ["k", "v"], PCommand.mk "FLUSHDB" []]
        ⟨.ok 1, .ok .nil, .ok []⟩).1.success = false ∧
      (redisCommand "PIPELINE" 0 []
        [PCommand.mk "set" ["k", "v"], PCommand.mk "FLUSHDB" []]
        ⟨.ok 1, .ok .nil, .ok []⟩).1.status = 400) ∧
     ∀ ev ∈ (redisCommand "PIPELINE" 0 []
        [PCommand.mk "set" ["k", "v"], PCommand.mk "FLUSHDB" []]
        ⟨.ok 1, .ok .nil, .ok []⟩).2,
       (∀ cn aa k, ev ≠ GEvent.send cn aa k) ∧ (∀ cs k, ev ≠ GEvent.flushPipe cs k)) :=
  ⟨rfl,
   ⟨PCommand.mk "FLUSHDB" [], by simp, by decide⟩,
   pipeline_with_denylisted_command_sends_nothing "PIPELINE" 0 [] _ _ rfl
     ⟨PCommand.mk "FLUSHDB" [], by simp, by decide⟩⟩

/-- C10: a pipeline containing a denylisted command fails with status 400
and message `Command <name> not allowed.` carrying the offending name as
the caller wrote it, while a denylisted single command fails with status
403 and the name-free message `Command not allowed.`.  The offending
command is the first denylisted one found; the hygiene hypotheses state
that its name holds no newline, no carriage return, and no occurrence of
the wire-protocol reply prefix inside the built message (true of every
real command name). -/
theorem pipeline_denylist_400_named_vs_single_403 (cmdName : String) (db : Nat)
    (args : List String) (commands : List PCommand) (env : GEnv) (c : Nat)
    (offending : PCommand) (single : String)
    (hpipe : lowerStr cmdName = "pipeline")
    (hacq : env.acquire = .ok c)
    (hfind : commands.find?
      (fun cmd => BANNED_COMMANDS.contains (lowerStr cmd.command)) = some offending)
    (hnl : ∀ ch ∈ ("Command " ++ offending.command ++ " not allowed.").data, ch ≠ '\n')
    (hcr : ∀ ch ∈ ("Command " ++ offending.command ++ " not allowed.").data, ch ≠ '\r')
    (herr : hasSubseg "-ERR ".data
      ("Command " ++ offending.command ++ " not allowed.").data = false)
    (hban2 : BANNED_COMMANDS.contains (lowerStr single) = true) :
    (redisCommand cmdName db args commands env).1 =
      { success := false
        error := some ("Command " ++ offending.command ++ " not allowed.")
        status := 400, result := .obj [] } ∧
    (redisCommand single db args commands env).1 =
      { success := false, error := some "Command not allowed.", status := 403,
        result := .obj [] } := by
  constructor
  · rw [redisCommand_pipeline cmdName db args commands env hpipe,
      handlePipeline_banned_found db commands env c offending hacq hfind,
      formatError_of_error_message _ hnl hcr herr]
  · rw [redisCommand_banned_single single db args commands env hban2]

/-- Witness for C10: offending pipeline command FLUSHDB, single command
CONFIG. -/
theorem pipeline_denylist_400_named_vs_single_403_witness :
    (redisCommand "PIPELINE" 2 [] [PCommand.mk "get" ["k"], PCommand.mk "FLUSHDB" []]
      ⟨.ok 7, .ok .nil, .ok []⟩).1 =
      { success := false
        error := some ("Command " ++ "FLUSHDB" ++ " not allowed.")
        status := 400, result := .obj [] } ∧
    (redisCommand "CONFIG" 2 [] [PCommand.mk "get" ["k"], PCommand.mk "FLUSHDB" []]
      ⟨.ok 7, .ok .nil, .ok []⟩).1 =
      { success := false, error := some "Command not allowed.", status := 403,
        result := .obj [] } :=
  pipeline_denylist_400_named_vs_single_403 "PIPELINE" 2 []
    [PCommand.mk "get" ["k"], PCommand.mk "FLUSHDB" []]
    ⟨.ok 7, .ok .nil, .ok []⟩ 7 (PCommand.mk "FLUSHDB" []) "CONFIG"
    rfl rfl (by decide) (by decide) (by decide) (by decide) (by decide)

/-- C8: in every single-command execution and every pipeline execution in
which a connection was acquired, that connection is also released — on
success, on a backend-reported error, and on a thrown send/flush error —
and releasing removes the connection from the checked-out set. -/
theorem acquired_connection_always_released :
    (∀ cmdName db args pipeArg env c,
      GEvent.acquire c ∈ (redisCommand cmdName db args pipeArg env).2 →
      GEvent.release c ∈ (redisCommand cmdName db args pipeArg env).2) ∧
    (∀ db commands env c,
      GEvent.acquire c ∈ (handlePipelineCommand db commands env).2 →
      GEvent.release c ∈ (handlePipelineCommand db commands env).2) ∧
    (∀ st c d now, inUseHasC c (releaseConnection c d now st) = false) := by
  have hp : ∀ db commands env c,
      GEvent.acquire c ∈ (handlePipelineCommand db commands env).2 →
      GEvent.release c ∈ (handlePipelineCommand db commands env).2 := by
    intro db commands env c h
    unfold handlePipelineCommand at h ⊢
    cases hacq : env.acquire with
    | error e => rw [hacq] at h; simp at h
    | ok cc =>
      rw [hacq] at h
      cases hfind : commands.find?
          (fun cmd => BANNED_COMMANDS.contains (lowerStr cmd.command)) with
      | some off => rw [hfind] at h; simp at h; simp [h]
      | none =>
        rw [hfind] at h
        cases hflush : env.flush with
        | ok rs => rw [hflush] at h; simp at h; simp [h]
        | error e => rw [hflush] at h; simp at h; simp [h]
  refine ⟨?_, hp, ?_⟩
  · intro cmdName db args pipeArg env c h
    unfold redisCommand at h ⊢
    by_cases hpipe : (lowerStr cmdName == "pipeline") = true
    · rw [hpipe] at h ⊢
      simp only [if_true] at h ⊢
      have hthis := hp db pipeArg env c
      rcases hhp : handlePipelineCommand db pipeArg env with ⟨res, tr⟩
      rw [hhp] at h hthis
      cases res with
      | ok resp => exact hthis h
      | error e => exact hthis h
    · rw [Bool.not_eq_true] at hpipe
      rw [hpipe] at h ⊢
      simp only [Bool.false_eq_true, if_false] at h ⊢
      by_cases hban : (BANNED_COMMANDS.contains (lowerStr cmdName)) = true
      · rw [hban] at h; simp at h
      · rw [Bool.not_eq_true] at hban
        rw [hban] at h ⊢
        simp only [Bool.false_eq_true, if_false] at h ⊢
        cases hacq : env.acquire with
        | error e => rw [hacq] at h; simp at h
        | ok cc =>
          rw [hacq] at h
          cases hsend : env.send with
          | ok r => rw [hsend] at h; simp at h; simp [h]
          | error e => rw [hsend] at h; simp at h; simp [h]
  · intro st c d now
    unfold releaseConnection
    by_cases hin : inUseHasC c st = true
    · rw [if_pos hin]
      unfold inUseHasC
      rw [List.any_eq_false]
      intro p hp2
      rw [List.mem_filter] at hp2
      have hne : (p.1 != c) = true := hp2.2
      rw [bne_iff_ne] at hne
      simp [hne]
    · rw [if_neg hin]
      rw [Bool.not_eq_true] at hin
      exact hin

/-- Witness for C8: a send that throws still yields a release of the
acquired connection, and releasing removes it from the checked-out set. -/
theorem acquired_connection_always_released_witness :
    GEvent.release 9 ∈ (redisCommand "get" 1 ["k"] []
      ⟨.ok 9, .error "boom", .ok []⟩).2 ∧
    inUseHasC 9 (releaseConnection 9 1 5 ⟨[(1, [])], [(9, ⟨1, 0⟩)]⟩) = false :=
  ⟨(acquired_connection_always_released).1 "get" 1 ["k"] []
      ⟨.ok 9, .error "boom", .ok []⟩ 9 (by decide),
   (acquired_connection_always_released).2.2 ⟨[(1, [])], [(9, ⟨1, 0⟩)]⟩ 9 1 5⟩

/-- C9 counterexample: a pipeline whose single reply is the literal OK
sentinel.  The claim says every acknowledged reply — including those
inside a pipeline result sequence — is delivered as the empty structured
object, but the gateway returns the pipeline flush result verbatim: the
caller receives the literal string OK inside the array, not an empty
object. -/
theorem pipeline_ok_sentinel_passed_through_cex :
    (redisCommand "PIPELINE" 0 [] [PCommand.mk "hmset" ["k", "f", "v"]] okPipeEnv).1.success
      = true ∧
    (redisCommand "PIPELINE" 0 [] [PCommand.mk "hmset" ["k", "f", "v"]] okPipeEnv).1.result
      = .arr [.str "OK"] ∧
    (redisCommand "PIPELINE" 0 [] [PCommand.mk "hmset" ["k", "f", "v"]] okPipeEnv).1.result
      ≠ .arr [.obj []] := by
  refine ⟨rfl, rfl, ?_⟩
  intro h
  have h2 : JsonVal.arr [JsonVal.str "OK"] = JsonVal.arr [JsonVal.obj []] := h
  simp at h2

/-- C9 amended: the OK-to-empty-object normalization applies exactly to
single-command replies; a pipeline's reply sequence is returned verbatim,
acknowledged sentinel elements included. -/
theorem ok_sentinel_normalized_single_only (cmdName : String) (db : Nat)
    (args : List String) (pipeArg : List PCommand) (env : GEnv) (c : Nat)
    (rs : List JsonVal) :
    ((lowerStr cmdName == "pipeline") = false →
      BANNED_COMMANDS.contains (lowerStr cmdName) = false →
      env.acquire = .ok c → env.send = .ok (.str "OK") →
      (redisCommand cmdName db args pipeArg env).1.result = .obj []) ∧
    (lowerStr cmdName = "pipeline" →
      env.acquire = .ok c → env.flush = .ok rs →
      pipeArg.find? (fun cmd => BANNED_COMMANDS.contains (lowerStr cmd.command)) = none →
      (redisCommand cmdName db args pipeArg env).1.result = .arr rs) := by
  constructor
  · intro hnp hnb hacq hsend
    rw [redisCommand_single_send_ok cmdName db args pipeArg env c (.str "OK")
      hnp hnb hacq hsend]
    rfl
  · intro hpipe hacq hflush hnone
    rw [redisCommand_pipeline cmdName db args pipeArg env hpipe,
      handlePipeline_flush_ok db pipeArg env c rs hacq hnone hflush]

/-- Witness for the amended C9: a single HMSET reply OK becomes the empty
object, while the pipeline flush sequence passes through verbatim. -/
theorem ok_sentinel_normalized_single_only_witness :
    (redisCommand "hmset" 0 ["k", "f", "v"] []
      ⟨.ok 3, .ok (.str "OK"), .ok [.str "OK"]⟩).1.result = .obj [] ∧
    (redisCommand "PIPELINE" 0 [] [PCommand.mk "expire" ["k", "60"]]
      ⟨.ok 3, .ok (.str "OK"), .ok [.str "OK"]⟩).1.result = .arr [.str "OK"] :=
  ⟨(ok_sentinel_normalized_single_only "hmset" 0 ["k", "f", "v"] []
      ⟨.ok 3, .ok (.str "OK"), .ok [.str "OK"]⟩ 3 [.str "OK"]).1
      (by decide) (by decide) rfl rfl,
   (ok_sentinel_normalized_single_only "PIPELINE" 0 [] [PCommand.mk "expire" ["k", "60"]]
      ⟨.ok 3, .ok (.str "OK"), .ok [.str "OK"]⟩ 3 [.str "OK"]).2
      (by decide) rfl rfl (by decide)⟩

/-- The only error the session script handler can raise. -/
theorem sessionInvoke_error_msg (db : Nat) (args : List String) (env : GEnv) (m : String)
    (h : sessionInvoke db args env = .error m) : m = "Operation failed" := by
  simp only [sessionInvoke] at h
  split at h
  all_goals split at h
  all_goals
    first
      | exact Except.noConfusion h
      | (injection h with h2; exact h2.symm)

/-- The only errors the sismember script handler can raise. -/
theorem sismemberInvoke_error_msg (db : Nat) (args : List String) (env : GEnv) (m : String)
    (h : sismemberInvoke db args env = .error m) :
    m = "Required arguments: <user_id> <set_1> <set_2> ..." ∨
    m = "responses.result.forEach is not a function" := by
  simp only [sismemberInvoke] at h
  split at h
  · injection h with h2
    exact Or.inl h2.symm
  · split at h
    · split at h
      · exact Except.noConfusion h
      · injection h with h2
        exact Or.inr h2.symm
    · exact Except.noConfusion h

/-- The not-found message always includes the `not found` marker, for any
script hash. -/
theorem scriptNotFoundMsg_contains (hash : String) :
    containsSubstr (scriptNotFoundMsg hash) "not found" = true := by
  unfold containsSubstr scriptNotFoundMsg
  have hd : ("Script " ++ hash ++ " not found. Are you sure it exists?").data
      = ("Script ".data ++ hash.data) ++ " not found. Are you sure it exists?".data := rfl
  rw [hd, List.append_assoc]
  exact hasSubseg_append_right _ _ _
    (hasSubseg_append_right _ _ _ (by decide))

theorem evalshaDispatch_notFound (hash : String) :
    evalshaDispatch hash .notFound = .nativeFallthrough := by
  show (if containsSubstr (scriptNotFoundMsg hash) "not found" = true
    then EvalshaOutcome.nativeFallthrough
    else EvalshaOutcome.scriptErr (scriptNotFoundMsg hash)) = .nativeFallthrough
  rw [scriptNotFoundMsg_contains hash]
  rfl

theorem evalshaDispatch_registered_ok (hash : String) (v : JsonVal) :
    evalshaDispatch hash (.registered (.ok v)) = .scriptOk v := rfl

theorem evalshaDispatch_registered_error (hash m : String)
    (hc : containsSubstr m "not found" = false) :
    evalshaDispatch hash (.registered (.error m)) = .scriptErr m := by
  show (if containsSubstr m "not found" = true
    then EvalshaOutcome.nativeFallthrough
    else EvalshaOutcome.scriptErr m) = .scriptErr m
  rw [hc]
  exact if_neg (by exact fun hx => Bool.false_ne_true hx)

theorem evalshaRequest_of_dispatch_native (cmdName hash : String) (db : Nat)
    (args : List String) (res : ScriptResolution) (env : GEnv)
    (h : evalshaDispatch hash res = .nativeFallthrough) :
    evalshaRequest cmdName hash db args res env =
      .native (redisCommand cmdName db args [] env) := by
  unfold evalshaRequest
  rw [h]

theorem evalshaRequest_of_dispatch_err (cmdName hash : String) (db : Nat)
    (args : List String) (res : ScriptResolution) (env : GEnv) (m : String)
    (h : evalshaDispatch hash res = .scriptErr m) :
    evalshaRequest cmdName hash db args res env = .scriptError m := by
  unfold evalshaRequest
  rw [h]

/-- C6: an unregistered script identifier falls through to native
EVALSHA execution with the caller's original command and arguments (no
not-found error is surfaced), while an identifier resolving to either of
the repository's registered handlers never reaches native execution —
both handlers can only fail with messages that lack the `not found`
marker the fallthrough test looks for. -/
theorem script_dispatch_fallback_and_registered :
    (∀ cmdName scriptHash db args env,
      evalshaRequest cmdName scriptHash db args ScriptResolution.notFound env =
        .native (redisCommand cmdName db args [] env)) ∧
    (∀ scriptHash db args env,
      evalshaDispatch scriptHash
        (.registered (sessionInvoke db args env)) ≠ .nativeFallthrough) ∧
    (∀ scriptHash db args env,
      evalshaDispatch scriptHash
        (.registered (sismemberInvoke db args env)) ≠ .nativeFallthrough) := by
  refine ⟨?_, ?_, ?_⟩
  · intro cmdName scriptHash db args env
    exact evalshaRequest_of_dispatch_native cmdName scriptHash db args _ env
      (evalshaDispatch_notFound scriptHash)
  · intro scriptHash db args env h
    cases hro : sessionInvoke db args env with
    | ok v =>
      rw [hro, evalshaDispatch_registered_ok] at h
      exact EvalshaOutcome.noConfusion h
    | error m =>
      have hm := sessionInvoke_error_msg db args env m hro
      subst hm
      rw [hro, evalshaDispatch_registered_error scriptHash _ (by decide)] at h
      exact EvalshaOutcome.noConfusion h
  · intro scriptHash db args env h
    cases hro : sismemberInvoke db args env with
    | ok v =>
      rw [hro, evalshaDispatch_registered_ok] at h
      exact EvalshaOutcome.noConfusion h
    | error m =>
      rcases sismemberInvoke_error_msg db args env m hro with hm | hm
      all_goals
        subst hm
        rw [hro, evalshaDispatch_registered_error scriptHash _ (by decide)] at h
        exact EvalshaOutcome.noConfusion h

/-- C7: a failure raised by either of the repository's registered script
handlers is returned to the HTTP caller as the 400 script-error response
carrying the handler's message — it neither reaches native EVALSHA
execution nor is swallowed. -/
theorem script_handler_failure_returns_400 :
    (∀ cmdName scriptHash db args env m,
      sessionInvoke db args env = .error m →
      evalshaRequest cmdName scriptHash db args
        (.registered (sessionInvoke db args env)) env = .scriptError m) ∧
    (∀ cmdName scriptHash db args env m,
      sismemberInvoke db args env = .error m →
      evalshaRequest cmdName scriptHash db args
        (.registered (sismemberInvoke db args env)) env = .scriptError m) := by
  constructor
  · intro cmdName scriptHash db args env m hro
    have hm := sessionInvoke_error_msg db args env m hro
    subst hm
    rw [hro]
    exact evalshaRequest_of_dispatch_err cmdName scriptHash db args _ env _
      (evalshaDispatch_registered_error scriptHash _ (by decide))
  · intro cmdName scriptHash db args env m hro
    rw [hro]
    rcases sismemberInvoke_error_msg db args env m hro with hm | hm
    all_goals
      subst hm
      exact evalshaRequest_of_dispatch_err cmdName scriptHash db args _ env _
        (evalshaDispatch_registered_error scriptHash _ (by decide))

/-- Witness for C7: a backend whose pipeline flush fails makes the
session handler raise `Operation failed`, which the dispatcher returns as
the 400 script-error response. -/
theorem script_handler_failure_returns_400_witness :
    sessionInvoke 4 ["name", "sess", "60"] ⟨.ok 1, .ok .nil, .error "backend down"⟩ =
      .error "Operation failed" ∧
    evalshaRequest "EVALSHA" "somehash" 4 ["name", "sess", "60"]
      (.registered (sessionInvoke 4 ["name", "sess", "60"]
        ⟨.ok 1, .ok .nil, .error "backend down"⟩))
      ⟨.ok 1, .ok .nil, .error "backend down"⟩ = .scriptError "Operation failed" := by
  have hro : sessionInvoke 4 ["name", "sess", "60"]
      ⟨.ok 1, .ok .nil, .error "backend down"⟩ = .error "Operation failed" := by
    rfl
  exact ⟨hro,
    (script_handler_failure_returns_400).1 "EVALSHA" "somehash" 4 ["name", "sess", "60"]
      ⟨.ok 1, .ok .nil, .error "backend down"⟩ "Operation failed" hro⟩

/- ### Helper lemmas: pool bookkeeping -/

theorem find?_append_all_neg {α : Type} (p : α → Bool) (l1 l2 : List α)
    (h : ∀ x ∈ l1, p x = false) : (l1 ++ l2).find? p = l2.find? p := by
  induction l1 with
  | nil => rfl
  | cons a l ih =>
    rw [List.cons_append,
      List.find?_cons_of_neg _ (by rw [h a (List.mem_cons_self a l)]; exact Bool.false_ne_true),
      ih fun x hx => h x (List.mem_cons_of_mem a hx)]

theorem find?_map_update (d : Nat) (m : List (Nat × Nat))
    (pools : List (Nat × List (Nat × Nat)))
    (h : pools.any (fun p => p.1 == d) = true) :
    (pools.map (fun p => if p.1 == d then (d, m) else p)).find?
      (fun p => p.1 == d) = some (d, m) := by
  induction pools with
  | nil => simp at h
  | cons hd tl ih =>
    rw [List.map_cons]
    by_cases hhd : (hd.1 == d) = true
    · rw [if_pos hhd]
      exact List.find?_cons_of_pos _ (by simp)
    · rw [if_neg hhd]
      have hstep : List.find? (fun p => p.1 == d)
          (hd :: List.map (fun p => if p.1 == d then (d, m) else p) tl) =
          List.find? (fun p => p.1 == d)
            (List.map (fun p => if p.1 == d then (d, m) else p) tl) :=
        List.find?_cons_of_neg _ hhd
      rw [hstep]
      apply ih
      rcases List.any_eq_true.mp h with ⟨x, hx, hpx⟩
      rcases List.mem_cons.mp hx with rfl | hx2
      · exact absurd hpx hhd
      · exact List.any_eq_true.mpr ⟨x, hx2, hpx⟩

theorem find?_setPoolEntry (d : Nat) (m : List (Nat × Nat))
    (pools : List (Nat × List (Nat × Nat))) :
    (setPoolEntry d m pools).find? (fun p => p.1 == d) = some (d, m) := by
  unfold setPoolEntry
  by_cases h : pools.any (fun p => p.1 == d) = true
  · rw [if_pos h]
    exact find?_map_update d m pools h
  · rw [if_neg h]
    have hall : ∀ p ∈ pools, ((fun p => p.1 == d) p) = false := by
      intro p hp
      by_cases hx : (p.1 == d) = true
      · exact absurd (List.any_eq_true.mpr ⟨p, hp, hx⟩) h
      · exact Bool.not_eq_true _ |>.mp hx
    rw [find?_append_all_neg _ pools [(d, m)] hall]
    exact List.find?_cons_of_pos _ (by simp)

theorem poolOf_mk (d : Nat) (m : List (Nat × Nat))
    (pools : List (Nat × List (Nat × Nat))) (iu : List (Nat × InUseRec)) :
    poolOf d ⟨setPoolEntry d m pools, iu⟩ = m := by
  unfold poolOf
  rw [show (⟨setPoolEntry d m pools, iu⟩ : PoolState).pools = setPoolEntry d m pools from rfl,
    find?_setPoolEntry]

theorem poolsHas_mk (d : Nat) (m : List (Nat × Nat))
    (pools : List (Nat × List (Nat × Nat))) (iu : List (Nat × InUseRec)) :
    poolsHas d ⟨setPoolEntry d m pools, iu⟩ = true := by
  unfold poolsHas
  exact List.any_eq_true.mpr
    ⟨(d, m), List.mem_of_find?_eq_some (find?_setPoolEntry d m pools), by simp⟩

theorem poolOf_add (d c now : Nat) (st : PoolState) :
    poolOf d (addConnectionToPool d c now st) = setAssoc (poolOf d st) c now :=
  poolOf_mk d (setAssoc (poolOf d st) c now) st.pools st.inUse

theorem poolsHas_add (d c now : Nat) (st : PoolState) :
    poolsHas d (addConnectionToPool d c now st) = true :=
  poolsHas_mk d (setAssoc (poolOf d st) c now) st.pools st.inUse

theorem setAssoc_fresh (m : List (Nat × Nat)) (c v : Nat)
    (h : m.any (fun p => p.1 == c) = false) : setAssoc m c v = m ++ [(c, v)] := by
  unfold setAssoc
  rw [if_neg (by rw [h]; exact Bool.false_ne_true)]

theorem foldl_add_inUse (d now : Nat) (cs : List Nat) (st : PoolState) :
    (cs.foldl (fun s c => addConnectionToPool d c now s) st).inUse = st.inUse := by
  induction cs generalizing st with
  | nil => rfl
  | cons c cs ih =>
    rw [List.foldl_cons, ih]
    rfl

theorem foldl_add_poolsHas (d now : Nat) (cs : List Nat) (st : PoolState)
    (h : poolsHas d st = true) :
    poolsHas d (cs.foldl (fun s c => addConnectionToPool d c now s) st) = true := by
  induction cs generalizing st with
  | nil => exact h
  | cons c cs ih =>
    rw [List.foldl_cons]
    exact ih _ (poolsHas_add d c now st)

theorem foldl_add_poolOf (d now : Nat) (cs : List Nat) (st : PoolState)
    (hfresh : ∀ x ∈ cs, (poolOf d st).any (fun q => q.1 == x) = false)
    (hnodup : nodupB cs = true) :
    poolOf d (cs.foldl (fun s c => addConnectionToPool d c now s) st) =
      poolOf d st ++ cs.map (fun c => (c, now)) := by
  induction cs generalizing st with
  | nil => simp
  | cons c cs ih =>
    rw [List.foldl_cons]
    have hc : (poolOf d st).any (fun q => q.1 == c) = false :=
      hfresh c (List.mem_cons_self c cs)
    have hadd : poolOf d (addConnectionToPool d c now st) = poolOf d st ++ [(c, now)] := by
      rw [poolOf_add, setAssoc_fresh _ _ _ hc]
    have hnodup2 : nodupB cs = true := by
      rw [nodupB, Bool.and_eq_true] at hnodup
      exact hnodup.2
    have hcs_notc : (cs.any (fun y => y == c)) = false := by
      rw [nodupB, Bool.and_eq_true] at hnodup
      have hx := hnodup.1
      rwa [Bool.not_eq_true'] at hx
    have hfresh2 : ∀ x ∈ cs,
        (poolOf d (addConnectionToPool d c now st)).any (fun q => q.1 == x) = false := by
      intro x hx
      rw [hadd, List.any_append, hfresh x (List.mem_cons_of_mem c hx)]
      have hxc : (c == x) = false := by
        by_cases hcx : c = x
        · subst hcx
          have hmem : (cs.any fun y => y == c) = true :=
            List.any_eq_true.mpr ⟨c, hx, beq_self_eq_true c⟩
          rw [hcs_notc] at hmem
          exact absurd hmem Bool.false_ne_true
        · exact beq_eq_false_iff_ne.mpr hcx
      simp [hxc]
    rw [ih _ hfresh2 hnodup2, hadd, List.append_assoc]
    rfl

/-- C2 counterexample: the first acquire on a fresh database index with
nine of ten creation attempts failing throws the creation error, but the
pool entry (registered before the attempts and never removed) keeps the
one surviving connection.  The next acquire for the same index silently
succeeds out of this half-populated pool instead of surfacing any
failure. -/
theorem pool_init_failure_partial_reuse_cex :
    (acquireConnection 0 c2FailOutcomes 0 poolEmpty).1 = .error "connection refused" ∧
    poolOf 0 (acquireConnection 0 c2FailOutcomes 0 poolEmpty).2 = [(1, 0)] ∧
    idleCount 0 (acquireConnection 0 c2FailOutcomes 0 poolEmpty).2 < POOL_SIZE ∧
    (acquireConnection 0 [] 0 (acquireConnection 0 c2FailOutcomes 0 poolEmpty).2).1 =
      .ok 1 := by
  decide

/-- C2 amended: when any of the connection-creation attempts of lazy
initialization fails, the failure does propagate to the triggering
acquire call; but the pool for `d` is left registered and holding exactly
the successfully created connections, and subsequent acquires draw from
this partial pool without surfacing the failure — the next acquire
returns the first surviving connection. -/
theorem pool_init_failure_propagates_but_partial_pool_reused (st : PoolState) (d : Nat)
    (outcomes : List (Except String Nat)) (now : Nat)
    (hno : poolsHas d st = false)
    (hfail : ∃ e, firstInitError outcomes = some e)
    (hfresh : ∀ c ∈ initSuccesses outcomes, inUseHasC c st = false)
    (hnodup : nodupB (initSuccesses outcomes) = true) :
    (∃ e, (acquireConnection d outcomes now st).1 = .error e) ∧
    poolOf d (acquireConnection d outcomes now st).2 =
      (initSuccesses outcomes).map (fun c => (c, now)) ∧
    (∀ c0 cs, initSuccesses outcomes = c0 :: cs →
      ∀ outcomes2,
        (acquireConnection d outcomes2 now (acquireConnection d outcomes now st).2).1 =
          .ok c0) := by
  obtain ⟨e, he⟩ := hfail
  have hinit : initPool d outcomes now st =
      (.error e, (initSuccesses outcomes).foldl
        (fun s c => addConnectionToPool d c now s)
        { st with pools := setPoolEntry d [] st.pools }) := by
    unfold initPool
    rw [if_neg (by rw [hno]; exact Bool.false_ne_true), he]
  have hacq1 : acquireConnection d outcomes now st =
      (.error e, (initSuccesses outcomes).foldl
        (fun s c => addConnectionToPool d c now s)
        { st with pools := setPoolEntry d [] st.pools }) := by
    unfold acquireConnection
    rw [hno]
    simp only [Bool.not_false, if_true]
    rw [hinit]
  have hpool1 : poolOf d { st with pools := setPoolEntry d [] st.pools } = [] :=
    poolOf_mk d [] st.pools st.inUse
  have hpool2 : poolOf d (acquireConnection d outcomes now st).2 =
      (initSuccesses outcomes).map (fun c => (c, now)) := by
    rw [hacq1]
    rw [foldl_add_poolOf d now (initSuccesses outcomes) _
      (by intro x hx; rw [hpool1]; rfl) hnodup]
    rw [hpool1, List.nil_append]
  refine ⟨⟨e, by rw [hacq1]⟩, hpool2, ?_⟩
  intro c0 cs hsucc outcomes2
  have hhas2 : poolsHas d (acquireConnection d outcomes now st).2 = true := by
    rw [hacq1]
    exact foldl_add_poolsHas d now _ _ (poolsHas_mk d [] st.pools st.inUse)
  have hiu2 : (acquireConnection d outcomes now st).2.inUse = st.inUse := by
    rw [hacq1]
    exact foldl_add_inUse d now _ _
  have hinuse : inUseHasC c0 (acquireConnection d outcomes now st).2 = false := by
    unfold inUseHasC
    rw [hiu2]
    exact hfresh c0 (by rw [hsucc]; exact List.mem_cons_self c0 cs)
  have hpoolshape : poolOf d (acquireConnection d outcomes now st).2 =
      (c0, now) :: cs.map (fun c => (c, now)) := by
    rw [hpool2, hsucc, List.map_cons]
  have hpred : List.find?
      (fun q => !(inUseHasC q.1 (acquireConnection d outcomes now st).2))
      ((c0, now) :: cs.map (fun c => (c, now))) = some (c0, now) :=
    List.find?_cons_of_pos _ (by rw [hinuse]; rfl)
  have hfind : findAvailableConnection d now (acquireConnection d outcomes now st).2 =
      (some c0,
       { pools := setPoolEntry d
           (((c0, now) :: cs.map (fun c => (c, now))).filter (fun q2 => q2.1 != c0))
           (acquireConnection d outcomes now st).2.pools
         inUse := (acquireConnection d outcomes now st).2.inUse ++ [(c0, ⟨d, now⟩)] }) := by
    unfold findAvailableConnection
    rw [hpoolshape, hpred]
  set A := (acquireConnection d outcomes now st).2 with hA
  unfold acquireConnection
  rw [hhas2]
  simp only [Bool.not_true, Bool.false_eq_true, if_false]
  rw [hfind]

/-- Witness for the amended C2: database 3, one success then one failure;
the first acquire errors and the next acquire returns connection 21. -/
theorem pool_init_failure_propagates_witness :
    (∃ e, (acquireConnection 3 [Except.ok 21, Except.error "boom"] 5 poolEmpty).1 =
      .error e) ∧
    (acquireConnection 3 [] 5
      (acquireConnection 3 [Except.ok 21, Except.error "boom"] 5 poolEmpty).2).1 =
      .ok 21 := by
  have h := pool_init_failure_propagates_but_partial_pool_reused poolEmpty 3
    [Except.ok 21, Except.error "boom"] 5 (by decide) ⟨"boom", by decide⟩
    (by decide) (by decide)
  exact ⟨h.1, h.2.2 21 [] (by decide) []⟩

/-- C1: the pool invariant is violated by a reaper step that interleaves
with an acquire.  Trace: the first acquire initializes db 0 with
connections 1-10 (all timestamps 0) and checks out connection 1; its
caller releases it.  At t=400000 every idle connection is past the
300000 ms staleness threshold, so the reaper pings the first snapshotted
entry — connection 2 — and suspends on the awaited ping.  During that
await a request acquires connection 2 (the first available entry); the
invariant still holds at this instant (`InvB reaperScenarioPreState`).
The ping then rejects, and the reaper resumes: it deletes connection 2
from the pool map (a no-op now), closes a connection that a caller is
actively using, and adds replacement connection 11 — after which db 0 has
10 idle plus 1 checked-out connections, exceeding the capacity of 10,
and the excess persists after the caller's release (11 idle). -/
theorem reaper_interleaving_exceeds_capacity :
    InvB reaperScenarioPreState = true ∧
    idleCount 0 reaperScenarioPostState = POOL_SIZE ∧
    inUseCountDb 0 reaperScenarioPostState = 1 ∧
    InvB reaperScenarioPostState = false ∧
    idleCount 0 (releaseConnection 2 0 400001 reaperScenarioPostState) =
      POOL_SIZE + 1 := by
  decide

/-- Witness for C6: an unknown hash falls through to the native command
path; the repository's sismember handler never does. -/
theorem script_dispatch_fallback_and_registered_witness :
    evalshaRequest "EVALSHA" "nosuchhash" 0 ["k"] ScriptResolution.notFound
      ⟨.ok 2, .ok .nil, .ok []⟩ =
      .native (redisCommand "EVALSHA" 0 ["k"] [] ⟨.ok 2, .ok .nil, .ok []⟩) ∧
    evalshaDispatch "931c1c2f8694f9133c3b93929d3b1eb0ded545eb"
      (.registered (sismemberInvoke 0 ["x"] ⟨.ok 2, .ok .nil, .ok []⟩)) ≠
      .nativeFallthrough :=
  ⟨(script_dispatch_fallback_and_registered).1 "EVALSHA" "nosuchhash" 0 ["k"]
      ⟨.ok 2, .ok .nil, .ok []⟩,
   (script_dispatch_fallback_and_registered).2.2
      "931c1c2f8694f9133c3b93929d3b1eb0ded545eb" 0 ["x"] ⟨.ok 2, .ok .nil, .ok []⟩⟩

/-- Overflow fidelity of the numeric model: decimal literals beyond the
double range coerce to Infinity and are therefore not numeric-like (so
the gateway, like the V8 runtime, re-keys a pair of overflowing literals
— their keys fail the numeric veto), while literals up to the largest
double remain finite. -/
theorem jsIsNumeric_overflow_boundary :
    jsIsNumericStr "1e999" = false ∧
    jsIsNumericStr "2e308" = false ∧
    jsIsNumericStr "1e308" = true ∧
    jsIsNumericStr "1.7976931348623157e308" = true ∧
    jsIsNumericStr "1.7976931348623159e308" = false ∧
    normalizeResult "lrange" (.arr [.str "1e999", .str "2e999"]) =
      .obj [("1e999", .str "2e999")] ∧
    normalizeResult "lrange" (.arr [.str "1e30", .str "2e30"]) =
      .arr [.str "1e30", .str "2e30"] :=
  ⟨by decide, by decide, by decide, by decide, by decide, rfl, rfl⟩
